import Mathlib

/-!
Verification development for the product-scraper repository.

The Python source is shallowly embedded: pure computations become Lean
functions, the sequential fetch loops become folds or fuel-indexed
recursions over an oracle describing the upstream behaviour (one outcome
per HTTP request), and Python exceptions become `Except` values.  The
HTTP layer itself (requests / sessions) is external to the repository and
is modelled as that oracle; everything downstream of a response is
translated from the source files under `src/`.
-/

namespace Aldi

/-! ### Configuration constants, from `src/aldi/config.py` -/

def DEFAULT_LIMIT : Nat := 60

def MAX_PRODUCTS : Nat := 1000

/-! ### Pagination arithmetic, from `fetch_all_products` in
`src/aldi/product_fetcher.py` lines 73-85.

`max_offset = min(MAX_PRODUCTS, total_count)` and
`num_pages = (max_offset + DEFAULT_LIMIT - 1) // DEFAULT_LIMIT` (ceiling
division), generalised over the cap and the page size; the loop then
requests `offset = page * DEFAULT_LIMIT` for `page in range(num_pages)`. -/

def numPagesCalc (cap total pageSize : Nat) : Nat :=
  (min cap total + pageSize - 1) / pageSize

def pageOffsets (numPages pageSize : Nat) : List Nat :=
  (List.range numPages).map (fun page => page * pageSize)

/-! ### Outcome model for one page request.

Each constructor corresponds to one of the failure classes distinguished
by `fetch_all_products` (lines 84-125): a 403 status, another HTTP error
status (`raise_for_status`), a transport error (`RequestException` from
`session.get`), an undecodable JSON body, a decodable body missing the
`data` key, and any other unexpected exception (caught by the final
`except Exception`).  A successful page carries the extracted products,
identified by their sku strings. -/

inductive PageOutcome where
  | blocked
  | httpError
  | transportError
  | badJson
  | noData
  | unexpectedError
  | ok (products : List String)
  deriving DecidableEq

def pageFails : PageOutcome → Bool
  | .ok _ => false
  | _ => true

def pageProducts : PageOutcome → List String
  | .ok ps => ps
  | _ => []

/-- A Python exception that escapes the embedded code. -/
inductive PyErr where
  | keyError
  | requestError
  deriving DecidableEq

/-! ### First pass of `fetch_all_products` (lines 84-125).

Every page in `range(num_pages)` is attempted; a failing page is appended
to `failed_pages` and the loop continues, a successful page extends
`products` in page order. -/

def firstPass (fo : Nat → PageOutcome) (numPages : Nat) : List String × List Nat :=
  (List.range numPages).foldl
    (fun acc page =>
      if pageFails (fo page) then (acc.1, acc.2 ++ [page])
      else (acc.1 ++ pageProducts (fo page), acc.2))
    ([], [])

/-! ### Second (retry) pass of `fetch_all_products` (lines 127-210).

For a failed page the code runs `while retry_count < max_retries and not
success` with `max_retries = 3`.  After a failed attempt `retry_count` is
incremented; if it is still below 3 the code sleeps — `60 * retry_count`
seconds for a 403, `(2 ** retry_count) * 5` seconds for every other
failure class — and retries, otherwise it breaks, dropping the page.
`retryPageGo` returns the products of the page (or `none` when dropped)
together with the list of sleep durations, in order. -/

def retrySleep : PageOutcome → Nat → Nat
  | .blocked, retryCount => 60 * retryCount
  | _, retryCount => 2 ^ retryCount * 5

def retryPageGo (po : Nat → PageOutcome) : Nat → Nat → Option (List String) × List Nat
  | _, 0 => (none, [])
  | attempt, fuel + 1 =>
    if pageFails (po attempt) then
      let retryCount := attempt + 1
      if retryCount < 3 then
        let rest := retryPageGo po (attempt + 1) fuel
        (rest.1, retrySleep (po attempt) retryCount :: rest.2)
      else (none, [])
    else (some (pageProducts (po attempt)), [])

def retryPage (po : Nat → PageOutcome) : Option (List String) × List Nat :=
  retryPageGo po 0 3

/-! ### The whole of `fetch_all_products` (lines 40-212).

The initial total-count request (lines 64-69) is the only one whose
failure propagates: it sits outside every try block, so it is modelled
as an `Except` input.  `fo page` is the outcome of the first-pass request
for `page`; `ro page attempt` is the outcome of retry attempt `attempt`
for failed page `page` (issued on a fresh session).  Products recovered
in the retry pass are appended after the first-pass products, in
failed-page order. -/

def fetch_all_products_model (init : Except PyErr Nat) (fo : Nat → PageOutcome)
    (ro : Nat → Nat → PageOutcome) : Except PyErr (List String) :=
  match init with
  | .error e => .error e
  | .ok totalCount =>
    let numPages := numPagesCalc MAX_PRODUCTS totalCount DEFAULT_LIMIT
    let fp := firstPass fo numPages
    .ok (fp.2.foldl (fun acc page => acc ++ ((retryPage (ro page)).1.getD [])) fp.1)

/-! ### `fetch_products_by_category` (lines 215-292).

Single pass: the page loop breaks on the first 403, HTTP error, missing
`data` key, transport error or unexpected exception, returning whatever
was accumulated.  The initial total-count request sits inside the outer
try, whose handlers log and fall through to `return pd.DataFrame(products)`
with `products` still empty. -/

inductive CatInit where
  | initFailure
  | ok (totalCount : Nat)
  deriving DecidableEq

def catPageLoop (fo : Nat → PageOutcome) : Nat → Nat → List String
  | _, 0 => []
  | page, fuel + 1 =>
    if pageFails (fo page) then []
    else pageProducts (fo page) ++ catPageLoop fo (page + 1) fuel

def fetch_products_by_category_model (init : CatInit) (fo : Nat → PageOutcome)
    (maxProducts : Nat) : List String :=
  match init with
  | .initFailure => []
  | .ok totalCount => catPageLoop fo 0 (numPagesCalc maxProducts totalCount 12)

/-! ### Detail hydrator, `fetch_product_details` (lines 331-400).

The upstream detail endpoint is modelled per attempt: either the GET
raises a transport error (`RequestException`), or a response with a
status code and a body arrives.  The body is either not parseable JSON
(in which case `response.json()` raises `requests.exceptions.JSONDecodeError`,
a subclass of `RequestException`, hence caught by the retry handler) or a
parsed JSON object in which the presence of each expected field is an
`Option`.  `response.json()['data']` on a body without a `data` key
raises a `KeyError`, which the function's single
`except requests.exceptions.RequestException` clause does not catch, so
it escapes; the same holds for `product_data['sku']` and the
`['url']` / `['key']` / `['message']` subscripts on the first asset or
warning entry.  Python truthiness of `dict.get(...)` on string fields is
`pyTruthy`: present and non-empty. -/

def pyTruthy : Option String → Bool
  | none => false
  | some s => !(s == "")

structure CatEntry where
  key : Option String
  id : Option String
  name : Option String
  deriving DecidableEq

structure AssetEntry where
  url : Option String
  deriving DecidableEq

structure WarningEntry where
  key : Option String
  message : Option String
  deriving DecidableEq

structure ProductDataRec where
  sku : Option String
  description : Option String
  categories : Option (List CatEntry)
  countryOrigin : Option String
  assets : Option (List AssetEntry)
  warnings : Option (List WarningEntry)
  deriving DecidableEq

structure ParsedBody where
  data : Option ProductDataRec
  deriving DecidableEq

inductive BodyRes where
  | unparseable
  | parsed (body : ParsedBody)
  deriving DecidableEq

inductive AttemptOutcome where
  | transportError
  | response (status : Nat) (body : BodyRes)
  deriving DecidableEq

/-- The flat record built by `fetch_product_details` (lines 381-390), and
the `empty_result` placeholder of lines 349-358. -/
structure DetailResult where
  sku : String
  description : String
  categories : String
  category_keys : List String
  country_origin : String
  image_url : Option String
  warning_code : Option String
  warning_desc : Option String
  deriving DecidableEq

def empty_result (sku : String) : DetailResult :=
  { sku := sku
    description := ""
    categories := ""
    category_keys := []
    country_origin := ""
    image_url := none
    warning_code := none
    warning_desc := none }

/-- Line 378: `[cat.get('key', cat.get('id', '')) for cat in category_list
if cat.get('key') or cat.get('id')]`.  Note that `cat.get('key', dflt)`
returns the stored value whenever the `key` field is present, even when
that value is the empty string. -/
def categoryKeysOf (cats : List CatEntry) : List String :=
  (cats.filter (fun c => pyTruthy c.key || pyTruthy c.id)).map
    (fun c => c.key.getD (c.id.getD ""))

/-- Line 379: `[cat.get('name', '') for cat in category_list if cat.get('name')]`. -/
def categoryNamesOf (cats : List CatEntry) : List String :=
  (cats.filter (fun c => pyTruthy c.name)).map (fun c => c.name.getD "")

/-- Line 387: `product_data['assets'][0]['url'] if product_data.get('assets')
and len(product_data['assets']) > 0 else None`; the `['url']` subscript can
raise `KeyError`. -/
def imageUrlOf (pd : ProductDataRec) : Except PyErr (Option String) :=
  match pd.assets with
  | some (a :: _) =>
    match a.url with
    | some u => .ok (some u)
    | none => .error .keyError
  | _ => .ok none

/-- Lines 388-389: `product_data['warnings'][0]['key']` (resp. `['message']`)
if the warnings list is present and non-empty, else `None`. -/
def warningFieldOf (pd : ProductDataRec) (f : WarningEntry → Option String) :
    Except PyErr (Option String) :=
  match pd.warnings with
  | some (w :: _) =>
    match f w with
    | some v => .ok (some v)
    | none => .error .keyError
  | _ => .ok none

/-- The successful-response branch of `fetch_product_details`
(lines 374-390), starting after `response.json()['data']` succeeded. -/
def extractDetail (pd : ProductDataRec) : Except PyErr DetailResult :=
  match pd.sku with
  | none => .error .keyError
  | some s =>
    let cats := pd.categories.getD []
    match imageUrlOf pd with
    | .error e => .error e
    | .ok img =>
      match warningFieldOf pd (fun w => w.key) with
      | .error e => .error e
      | .ok wcode =>
        match warningFieldOf pd (fun w => w.message) with
        | .error e => .error e
        | .ok wdesc =>
          .ok { sku := s
                description := pd.description.getD ""
                categories := String.intercalate ", " (categoryNamesOf cats)
                category_keys := categoryKeysOf cats
                country_origin := pd.countryOrigin.getD ""
                image_url := img
                warning_code := wcode
                warning_desc := wdesc }

/-- An attempt outcome that the retry loop of `fetch_product_details`
absorbs: transport error, 403 status, another HTTP error status
(`raise_for_status`), or an unparseable body.  A parseable body on a
non-error status is instead processed (and can raise `KeyError`). -/
def attemptFails : AttemptOutcome → Bool
  | .transportError => true
  | .response status body =>
    (status == 403) || (decide (400 ≤ status) && decide (status < 600)) ||
      (match body with
       | .unparseable => true
       | .parsed _ => false)

/-- The retry loop `for attempt in range(max_retries)` of
`fetch_product_details` with `max_retries = 3`; `attempt < 2` is the
code's `attempt < max_retries - 1` check, and the exhausted-loop
fallthrough (line 400) returns `empty_result`. -/
def fpdGo (sku : String) (attempts : Nat → AttemptOutcome) :
    Nat → Nat → Except PyErr DetailResult
  | _, 0 => .ok (empty_result sku)
  | attempt, fuel + 1 =>
    match attempts attempt with
    | .transportError =>
      if attempt < 2 then fpdGo sku attempts (attempt + 1) fuel
      else .ok (empty_result sku)
    | .response status body =>
      if status = 403 then
        if attempt < 2 then fpdGo sku attempts (attempt + 1) fuel
        else .ok (empty_result sku)
      else if 400 ≤ status ∧ status < 600 then
        if attempt < 2 then fpdGo sku attempts (attempt + 1) fuel
        else .ok (empty_result sku)
      else
        match body with
        | .unparseable =>
          if attempt < 2 then fpdGo sku attempts (attempt + 1) fuel
          else .ok (empty_result sku)
        | .parsed pb =>
          match pb.data with
          | none => .error .keyError
          | some pd => extractDetail pd

def fetch_product_details (sku : String) (attempts : Nat → AttemptOutcome) :
    Except PyErr DetailResult :=
  fpdGo sku attempts 0 3

/-! ### Category discovery loop, `main` in `src/aldi/fetch_all_products.py`
(lines 44-102), with `extract_category_keys_from_details`
(`product_fetcher.py` lines 295-328).

`fc key` is the sku column of `fetch_products_by_category(key)`;
`fd sku` is the `category_keys` list of `fetch_product_details(sku)` —
both external fetches are oracles here, everything else is the loop body.
Python sets are lists under membership: an element may occur twice, the
proofs only ever use membership.  The fields mirror the script's
variables: `discovered` is `discovered_categories`, `fetched` is
`fetched_categories`, `toFetch` is `categories_to_fetch`, `seen` is
`fetched_skus`, `newCats` is the per-iteration `new_categories`, and
`trace` is `all_category_products` (one entry per appended
`new_products` batch). -/

structure DiscoveryState where
  discovered : List String
  fetched : List String
  toFetch : List String
  seen : List String
  newCats : List String
  trace : List (List String)
  deriving DecidableEq

/-- Python `str.strip()`: drop leading and trailing whitespace.  Written
by structural recursion on the character list so that concrete runs
reduce inside the kernel (ASCII whitespace, which is all the claims
exercise). -/
def pyStrip (s : String) : String :=
  String.mk (((s.data.dropWhile Char.isWhitespace).reverse.dropWhile
    Char.isWhitespace).reverse)

/-- Lines 304-328 of `product_fetcher.py`, list-of-dicts branch: union the
`category_keys` lists, then keep only keys passing
`k and str(k).strip()`. -/
def extract_category_keys_from_details (detailedInfo : List (List String)) : List String :=
  (detailedInfo.foldl (fun acc ks => acc ++ ks) []).filter
    (fun k => !(k == "") && !(pyStrip k == ""))

/-- Lines 91-94 of `fetch_all_products.py`: one `cat_key` of one detail
record; added to `new_categories` only when non-blank and in neither
`fetched_categories` nor `discovered_categories`. -/
def addNewCategory (st : DiscoveryState) (k : String) : DiscoveryState :=
  if k ≠ "" ∧ pyStrip k ≠ "" then
    if k ∉ st.fetched ∧ k ∉ st.discovered then
      { st with newCats := st.newCats.insert k }
    else st
  else st

/-- The detail-hydration loop of lines 88-94: for every kept sku, harvest
each key of its detail record. -/
def harvestProducts (fd : String → List String) (st : DiscoveryState)
    (ps : List String) : DiscoveryState :=
  ps.foldl (fun st2 sku => (fd sku).foldl addNewCategory st2) st

/-- Lines 69-94: processing of one `category_key` of the current batch. -/
def processCategory (fc fd : String → List String) (s : DiscoveryState)
    (c : String) : DiscoveryState :=
  if c ∈ s.fetched then s
  else
    let s1 : DiscoveryState := { s with fetched := c :: s.fetched }
    let catProducts := fc c
    if catProducts.isEmpty then s1
    else
      let newProducts := catProducts.filter (fun sku => decide (sku ∉ s1.seen))
      if newProducts.isEmpty then s1
      else
        let s2 : DiscoveryState :=
          { s1 with seen := s1.seen ++ newProducts
                    trace := s1.trace ++ [newProducts] }
        harvestProducts fd s2 newProducts

/-- Lines 62-102: one iteration of the `while` loop — snapshot the batch,
clear `categories_to_fetch` and `new_categories`, process the batch, then
queue any new categories. -/
def stepIteration (fc fd : String → List String) (s : DiscoveryState) : DiscoveryState :=
  let s1 := s.toFetch.foldl (processCategory fc fd) { s with toFetch := [], newCats := [] }
  if s1.newCats.isEmpty then s1
  else { s1 with discovered := s1.discovered ++ s1.newCats, toFetch := s1.newCats }

/-- `while categories_to_fetch and iteration < max_iterations` (line 61);
the returned number counts executed iterations. -/
def loopGo (fc fd : String → List String) :
    DiscoveryState → Nat → Nat → DiscoveryState × Nat
  | s, iter, 0 => (s, iter)
  | s, iter, fuel + 1 =>
    if s.toFetch.isEmpty then (s, iter)
    else loopGo fc fd (stepIteration fc fd s) (iter + 1) fuel

/-- Lines 46-60: the frontier is seeded with the initially discovered
category keys, and `fetched_skus` with the initial products. -/
def initState (initKeys initSeen : List String) : DiscoveryState :=
  { discovered := initKeys
    fetched := []
    toFetch := initKeys
    seen := initSeen
    newCats := []
    trace := [] }

def runDiscovery (fc fd : String → List String) (initKeys initSeen : List String) :
    DiscoveryState × Nat :=
  loopGo fc fd (initState initKeys initSeen) 0 10

/-- Invariant used for claim C9, relating a state of the discovery loop to
the seen-id set the caller supplied at the start of the run. -/
def keptInv (seen0 : List String) (st : DiscoveryState) : Prop :=
  (∀ x ∈ seen0, x ∈ st.seen)
  ∧ (∀ kept ∈ st.trace, ∀ sku ∈ kept, sku ∈ st.seen)
  ∧ (∀ kept ∈ st.trace, ∀ sku ∈ kept, sku ∉ seen0)
  ∧ List.Pairwise (fun kept1 kept2 => ∀ sku ∈ kept1, sku ∉ kept2) st.trace

/-! ### Concrete upstream data used by witnesses -/

def fcFixW : String → List String := fun c => ["p" ++ c]

def fdFixW : String → List String := fun _ => ["k1", "k2", "k3"]

def sFixW : DiscoveryState := initState ["k1", "k2", "k3"] []

def fcGrowW : String → List String := fun c => [c]

def fdGrowW : String → List String := fun sku => [sku ++ "x"]

def sGrowW : DiscoveryState := initState ["a"] []

def fcSeenW : String → List String := fun _ => ["p1", "p2"]

def fdSeenW : String → List String := fun _ => []

def sSeenW : DiscoveryState := initState ["c1"] ["p1"]

def pdW : ProductDataRec :=
  { sku := some "42"
    description := none
    categories := some [{ key := some "", id := some "cat9", name := some "Snacks" }]
    countryOrigin := none
    assets := none
    warnings := none }

end Aldi

namespace Walmart

/-! ### Price extraction slice of `parse_product_page_html`
(`src/walmart/product_fetcher.py` lines 84-486).

The regex engine and the JSON decoder are external capabilities, so the
model takes the outcome of each match attempt as an input and embeds the
control flow of the function around them: first the `__NEXT_DATA__` blob
assigns `price` from `priceInfo.currentPrice.price` when that path
exists (lines 139-143); then the price regex sweep (lines 255-270) runs
unconditionally over the four patterns in order, assigning
`product_data['price']` and breaking at the first match whose group
parses as a float, and continuing past a match whose group fails to
parse; finally each JSON-LD `Product` block carrying an `offers` price
that parses assigns `price` again, with no break (lines 304-334).
Prices are modelled as rationals; no arithmetic is performed on them. -/

inductive MatchRes where
  | noMatch
  | matchedOk (v : ℚ)
  | matchedBad
  deriving DecidableEq

structure PriceView where
  nextDataPrice : Option ℚ
  priceRegex : List MatchRes
  jsonLdOffers : List MatchRes
  deriving DecidableEq

/-- Lines 263-270: `for pattern in price_patterns:` — assign and `break`
on the first successful parse, `continue` on a `ValueError`. -/
def regexSweep : List MatchRes → Option ℚ → Option ℚ
  | [], p => p
  | r :: rest, p =>
    match r with
    | .matchedOk v => some v
    | .matchedBad => regexSweep rest p
    | .noMatch => regexSweep rest p

/-- Lines 308-334: every matching JSON-LD block assigns in turn, no
break. -/
def jsonLdSweep : List MatchRes → Option ℚ → Option ℚ
  | [], p => p
  | r :: rest, p =>
    match r with
    | .matchedOk v => jsonLdSweep rest (some v)
    | _ => jsonLdSweep rest p

/-- The `price` field produced by `parse_product_page_html`. -/
def parse_product_page_price (view : PriceView) : Option ℚ :=
  jsonLdSweep view.jsonLdOffers (regexSweep view.priceRegex view.nextDataPrice)

/-- Specification-side reading of the regex sweep: the first pattern that
matches and parses. -/
def firstRegexHit : List MatchRes → Option ℚ
  | [] => none
  | .matchedOk v :: _ => some v
  | _ :: rest => firstRegexHit rest

/-- Specification-side reading of the JSON-LD sweep: the last block that
assigns. -/
def lastLdHit : List MatchRes → Option ℚ
  | [] => none
  | .matchedOk v :: rest =>
    (match lastLdHit rest with
     | some w => some w
     | none => some v)
  | _ :: rest => lastLdHit rest

end Walmart


namespace Aldi

/-! ### Helper lemmas about the paged fetcher -/

theorem firstPass_succ (fo : Nat → PageOutcome) (n : Nat) :
    firstPass fo (n + 1) =
      (if pageFails (fo n) then ((firstPass fo n).1, (firstPass fo n).2 ++ [n])
       else ((firstPass fo n).1 ++ pageProducts (fo n), (firstPass fo n).2)) := by
  simp only [firstPass, List.range_succ, List.foldl_append, List.foldl_cons, List.foldl_nil]

theorem firstPass_snd (fo : Nat → PageOutcome) :
    ∀ n, (firstPass fo n).2 = (List.range n).filter (fun page => pageFails (fo page)) := by
  intro n
  induction n with
  | zero => rfl
  | succ m ih =>
    rw [firstPass_succ, List.range_succ, List.filter_append]
    cases h : pageFails (fo m) <;> simp [h, ih]

theorem catPageLoop_stops (fo : Nat → PageOutcome) :
    ∀ k i fuel, k < fuel → pageFails (fo (i + k)) = true →
      (∀ j < k, pageFails (fo (i + j)) = false) →
      catPageLoop fo i fuel = ((List.range k).map (fun j => pageProducts (fo (i + j)))).flatten := by
  intro k
  induction k with
  | zero =>
    intro i fuel hk hf _
    cases fuel with
    | zero => omega
    | succ m =>
      simp only [Nat.add_zero] at hf
      simp [catPageLoop, hf]
  | succ k ih =>
    intro i fuel hk hf hok
    cases fuel with
    | zero => omega
    | succ m =>
      have h0 : pageFails (fo i) = false := by
        have := hok 0 (by omega)
        simpa using this
      have harith : ∀ j : Nat, i + (j + 1) = (i + 1) + j := fun j => by omega
      have hrec := ih (i + 1) m (by omega)
        (by rw [← harith]; exact hf)
        (fun j hj => by rw [← harith]; exact hok (j + 1) (by omega))
      have hfun : ((fun j => pageProducts (fo (i + j))) ∘ Nat.succ)
          = fun j => pageProducts (fo ((i + 1) + j)) := by
        funext j
        simp only [Function.comp_apply]
        rw [← harith]
      calc catPageLoop fo i (m + 1)
          = pageProducts (fo i) ++ catPageLoop fo (i + 1) m := by
            simp [catPageLoop, h0]
        _ = pageProducts (fo (i + 0)) ++
              ((List.range k).map (fun j => pageProducts (fo ((i + 1) + j)))).flatten := by
            rw [hrec]
            simp
        _ = ((List.range (k + 1)).map (fun j => pageProducts (fo (i + j)))).flatten := by
            rw [List.range_succ_eq_map, List.map_cons, List.map_map, hfun, List.flatten_cons]

/-! ### Claim theorems for the Aldi paged fetcher -/

/-- Claim C3: the full-catalog fetch requests exactly
`ceil(min(totalCap, reportedTotal) / pageSize)` pages, with offsets
`page * pageSize`; in particular `totalCount = 130`, `pageSize = 60`,
`totalCap = 1000` yields 3 pages with offsets 0, 60, 120, and a reported
total of 0 yields zero pages and an empty result. -/
theorem claim_C3 (total cap ps : Nat) (fo : Nat → PageOutcome)
    (ro : Nat → Nat → PageOutcome) :
    numPagesCalc cap total ps = min cap total ⌈/⌉ ps
    ∧ pageOffsets (numPagesCalc cap total ps) ps
        = (List.range (min cap total ⌈/⌉ ps)).map (fun page => page * ps)
    ∧ numPagesCalc 1000 130 60 = 3
    ∧ pageOffsets (numPagesCalc 1000 130 60) 60 = [0, 60, 120]
    ∧ fetch_all_products_model (.ok 0) fo ro = .ok [] := by
  refine ⟨rfl, rfl, by decide, by decide, rfl⟩

/-- Claim C6: only the initial total-count request may propagate an error;
once it succeeds the whole fetch returns `.ok` whatever the per-page
outcomes are, and the first pass attempts every page of `range numPages`,
recording exactly the failing ones and continuing past each failure. -/
theorem claim_C6 (fo : Nat → PageOutcome) (ro : Nat → Nat → PageOutcome) :
    (∀ e, fetch_all_products_model (.error e) fo ro = .error e)
    ∧ (∀ totalCount, ∃ ps, fetch_all_products_model (.ok totalCount) fo ro = .ok ps)
    ∧ (∀ n, (firstPass fo n).2 = (List.range n).filter (fun page => pageFails (fo page))) := by
  exact ⟨fun e => rfl, fun totalCount => ⟨_, rfl⟩, firstPass_snd fo⟩

/-- Claim C4, counterexample: in the retry pass a page whose every attempt
is blocked (403) sleeps 60s then 120s only — the claimed sequence of
sleeps 60s, 120s, 180s over the 3 attempts never occurs, because after
the third failed attempt the code breaks without sleeping. -/
theorem claim_C4_counterexample :
    (retryPage (fun _ => .blocked)).2 = [60, 120]
    ∧ (retryPage (fun _ => .blocked)).2 ≠ [60, 120, 180]
    ∧ 180 ∉ (retryPage (fun _ => .blocked)).2 := by
  decide

/-- Claim C4, amended: each failed page is retried up to 3 attempts; a
sleep happens only after the first and second failed attempts (never
after the third), of 60s times the attempt number for a blocked attempt
and two-to-the-attempt-number times 5s for any other failed attempt; a
page whose three attempts all fail is dropped (result `none`) without
raising. -/
theorem claim_C4 (po : Nat → PageOutcome) :
    (retryPage po).2.length ≤ 2
    ∧ ((∀ i < 3, pageFails (po i) = true) →
        retryPage po = (none, [retrySleep (po 0) 1, retrySleep (po 1) 2]))
    ∧ (∀ rc, retrySleep .blocked rc = 60 * rc)
    ∧ (∀ o rc, o ≠ PageOutcome.blocked → retrySleep o rc = 2 ^ rc * 5) := by
  refine ⟨?_, ?_, fun rc => rfl, ?_⟩
  · cases h0 : pageFails (po 0) <;> cases h1 : pageFails (po 1) <;>
      cases h2 : pageFails (po 2) <;>
      simp [retryPage, retryPageGo, h0, h1, h2]
  · intro h
    have h0 := h 0 (by omega)
    have h1 := h 1 (by omega)
    have h2 := h 2 (by omega)
    simp [retryPage, retryPageGo, h0, h1, h2]
  · intro o rc ho
    cases o <;> first | exact absurd rfl ho | rfl

/-- Witness for claim C4: with every attempt a transport error, the page
is dropped after sleeps of 10s and 20s. -/
theorem claim_C4_witness :
    (retryPage (fun _ => PageOutcome.transportError)).2.length ≤ 2
    ∧ retryPage (fun _ => PageOutcome.transportError) = (none, [10, 20]) := by
  have h := claim_C4 (fun _ => PageOutcome.transportError)
  exact ⟨h.1, (h.2.1 (by decide)).trans (by decide)⟩

/-- Claim C7: the category fetch is single-pass; the first failing page
stops the remaining pages of the category and the accumulated partial
results are returned as-is, and an initial-request failure (for example a
transport error on the first page request) yields an empty result with
no exception. -/
theorem claim_C7 (fo : Nat → PageOutcome) (maxProducts totalCount k : Nat)
    (hk : k < numPagesCalc maxProducts totalCount 12)
    (hfail : pageFails (fo k) = true)
    (hok : ∀ j < k, pageFails (fo j) = false) :
    fetch_products_by_category_model (.ok totalCount) fo maxProducts
      = ((List.range k).map (fun j => pageProducts (fo j))).flatten
    ∧ ∀ (fo2 : Nat → PageOutcome) (m2 : Nat),
        fetch_products_by_category_model .initFailure fo2 m2 = [] := by
  constructor
  · have h := catPageLoop_stops fo k 0 (numPagesCalc maxProducts totalCount 12) hk
      (by simpa using hfail) (fun j hj => by simpa using hok j hj)
    simpa [fetch_products_by_category_model] using h
  · intro fo2 m2
    rfl

/-- Witness for claim C7: with page 0 succeeding and page 1 blocked, the
category fetch of a 24-product category (2 pages of 12) returns just the
first page. -/
theorem claim_C7_witness :
    fetch_products_by_category_model (.ok 24)
      (fun j => if j = 0 then .ok ["a"] else .blocked) 1000 = ["a"] := by
  have h := (claim_C7 (fun j => if j = 0 then .ok ["a"] else .blocked) 1000 24 1
    (by decide) (by decide) (by decide)).1
  simpa using h

end Aldi

namespace Aldi

/-! ### Claim theorems for the detail hydrator -/

theorem fpdGo_fail_step (sku : String) (attempts : Nat → AttemptOutcome) (a fuel : Nat)
    (ha : attemptFails (attempts a) = true) :
    fpdGo sku attempts a (fuel + 1) =
      if a < 2 then fpdGo sku attempts (a + 1) fuel else .ok (empty_result sku) := by
  rcases hA : attempts a with _ | ⟨status, body⟩
  · simp [fpdGo, hA]
  · rw [hA] at ha
    cases body with
    | unparseable =>
      by_cases h403 : status = 403
      · simp [fpdGo, hA, h403]
      · by_cases hrange : 400 ≤ status ∧ status < 600
        · simp [fpdGo, hA, h403, hrange]
        · simp [fpdGo, hA, h403, hrange]
    | parsed pb =>
      have ha' : status = 403 ∨ (400 ≤ status ∧ status < 600) := by
        simpa [attemptFails] using ha
      by_cases h403 : status = 403
      · simp [fpdGo, hA, h403]
      · have hrange : 400 ≤ status ∧ status < 600 := ha'.resolve_left h403
        simp [fpdGo, hA, h403, hrange]

theorem fpdGo_success_step (sku : String) (attempts : Nat → AttemptOutcome)
    (a fuel status : Nat) (pb : ParsedBody)
    (hA : attempts a = .response status (.parsed pb))
    (h403 : status ≠ 403) (hrange : ¬(400 ≤ status ∧ status < 600)) :
    fpdGo sku attempts a (fuel + 1) =
      (match pb.data with
       | none => .error .keyError
       | some pd => extractDetail pd) := by
  simp [fpdGo, hA, h403, hrange]

/-- Claim C2, counterexample: a 200 response whose body is valid JSON but
has no `data` record makes `fetch_product_details` raise a `KeyError`
(the subscript on line 374 is outside the `except RequestException`
handler), instead of returning the placeholder record. -/
theorem claim_C2_counterexample :
    fetch_product_details "123"
      (fun _ => .response 200 (.parsed { data := none })) = .error .keyError := by
  rfl

/-- Claim C2, amended: for every id and upstream behaviour in which each
attempt fails with a blocked 403 status, a transport error, another HTTP
error status, or an unparseable body, `fetch_product_details` raises no
exception and returns the placeholder whose sku is the requested id and
whose every other field is at its empty default.  (A parseable body
missing the `data` record instead raises `KeyError`, see the
counterexample.) -/
theorem claim_C2 (sku : String) (attempts : Nat → AttemptOutcome)
    (h : ∀ i < 3, attemptFails (attempts i) = true) :
    fetch_product_details sku attempts = .ok (empty_result sku)
    ∧ (empty_result sku).sku = sku
    ∧ (empty_result sku).description = ""
    ∧ (empty_result sku).categories = ""
    ∧ (empty_result sku).category_keys = []
    ∧ (empty_result sku).country_origin = ""
    ∧ (empty_result sku).image_url = none
    ∧ (empty_result sku).warning_code = none
    ∧ (empty_result sku).warning_desc = none := by
  refine ⟨?_, rfl, rfl, rfl, rfl, rfl, rfl, rfl, rfl⟩
  have e0 := fpdGo_fail_step sku attempts 0 2 (h 0 (by omega))
  have e1 := fpdGo_fail_step sku attempts 1 1 (h 1 (by omega))
  have e2 := fpdGo_fail_step sku attempts 2 0 (h 2 (by omega))
  simp only [show (0:Nat) < 2 from by omega, show (1:Nat) < 2 from by omega,
    if_true, if_pos] at e0 e1
  simp only [show ¬((2:Nat) < 2) from by omega, if_neg, if_false] at e2
  rw [fetch_product_details]
  rw [show (3:Nat) = 2 + 1 from rfl, e0, e1, e2]

/-- Witness for claim C2: all three attempts are transport errors, so the
placeholder for sku 42 comes back. -/
theorem claim_C2_witness :
    fetch_product_details "42" (fun _ => AttemptOutcome.transportError)
      = .ok (empty_result "42") :=
  (claim_C2 "42" (fun _ => AttemptOutcome.transportError) (by decide)).1

/-- Claim C10: a successful detail response whose categories list has an
entry with `key` present but equal to the empty string and a truthy `id`
passes the key-or-id guard, and the extracted value is the present
(empty) `key`, so the empty string appears in the returned
`category_keys`. -/
theorem claim_C10 (skuReq s : String) (attempts : Nat → AttemptOutcome)
    (pb : ParsedBody) (pd : ProductDataRec) (c : CatEntry) (cats : List CatEntry)
    (h0 : attempts 0 = .response 200 (.parsed pb))
    (hdata : pb.data = some pd)
    (hsku : pd.sku = some s)
    (hassets : pd.assets = none)
    (hwarn : pd.warnings = none)
    (hcats : pd.categories = some cats)
    (hc : c ∈ cats)
    (hkey : c.key = some "")
    (hid : pyTruthy c.id = true) :
    ∃ r, fetch_product_details skuReq attempts = .ok r ∧ "" ∈ r.category_keys := by
  have hmem : "" ∈ categoryKeysOf cats := by
    unfold categoryKeysOf
    apply List.mem_map.mpr
    refine ⟨c, List.mem_filter.mpr ⟨hc, ?_⟩, ?_⟩
    · simp [hid]
    · rw [hkey]
      rfl
  have hrun : fetch_product_details skuReq attempts =
      .ok { sku := s
            description := pd.description.getD ""
            categories := String.intercalate ", " (categoryNamesOf cats)
            category_keys := categoryKeysOf cats
            country_origin := pd.countryOrigin.getD ""
            image_url := none
            warning_code := none
            warning_desc := none } := by
    rw [fetch_product_details, show (3:Nat) = 2 + 1 from rfl,
      fpdGo_success_step skuReq attempts 0 2 200 pb h0 (by omega) (by omega), hdata]
    simp [extractDetail, hsku, hcats, imageUrlOf, hassets, warningFieldOf, hwarn]
  exact ⟨_, hrun, hmem⟩

/-- Witness for claim C10: a concrete response whose single category entry
is the record with empty `key` and id `cat9`. -/
theorem claim_C10_witness :
    ∃ r, fetch_product_details "42"
        (fun _ => .response 200 (.parsed { data := some pdW })) = .ok r
      ∧ "" ∈ r.category_keys :=
  claim_C10 "42" "42" (fun _ => .response 200 (.parsed { data := some pdW }))
    { data := some pdW } pdW
    { key := some "", id := some "cat9", name := some "Snacks" }
    [{ key := some "", id := some "cat9", name := some "Snacks" }]
    rfl rfl rfl rfl rfl rfl (by decide) rfl (by decide)

end Aldi

namespace Aldi

/-! ### Helper lemmas about the discovery loop -/

theorem addNewCategory_fields (st : DiscoveryState) (k : String) :
    (addNewCategory st k).discovered = st.discovered
    ∧ (addNewCategory st k).toFetch = st.toFetch
    ∧ (addNewCategory st k).fetched = st.fetched
    ∧ (addNewCategory st k).seen = st.seen
    ∧ (addNewCategory st k).trace = st.trace := by
  unfold addNewCategory
  split_ifs <;> simp

theorem foldlAdd_fields (ks : List String) :
    ∀ st : DiscoveryState,
      (ks.foldl addNewCategory st).discovered = st.discovered
      ∧ (ks.foldl addNewCategory st).toFetch = st.toFetch
      ∧ (ks.foldl addNewCategory st).fetched = st.fetched
      ∧ (ks.foldl addNewCategory st).seen = st.seen
      ∧ (ks.foldl addNewCategory st).trace = st.trace := by
  induction ks with
  | nil => intro st; exact ⟨rfl, rfl, rfl, rfl, rfl⟩
  | cons k ks ih =>
    intro st
    have h1 := addNewCategory_fields st k
    have h2 := ih (addNewCategory st k)
    rw [List.foldl_cons]
    exact ⟨h2.1.trans h1.1, h2.2.1.trans h1.2.1, h2.2.2.1.trans h1.2.2.1,
      h2.2.2.2.1.trans h1.2.2.2.1, h2.2.2.2.2.trans h1.2.2.2.2⟩

theorem harvestProducts_fields (fd : String → List String) (ps : List String) :
    ∀ st : DiscoveryState,
      (harvestProducts fd st ps).discovered = st.discovered
      ∧ (harvestProducts fd st ps).toFetch = st.toFetch
      ∧ (harvestProducts fd st ps).fetched = st.fetched
      ∧ (harvestProducts fd st ps).seen = st.seen
      ∧ (harvestProducts fd st ps).trace = st.trace := by
  induction ps with
  | nil => intro st; exact ⟨rfl, rfl, rfl, rfl, rfl⟩
  | cons sku ps ih =>
    intro st
    have h1 := foldlAdd_fields (fd sku) st
    have h2 := ih ((fd sku).foldl addNewCategory st)
    unfold harvestProducts at h2 ⊢
    rw [List.foldl_cons]
    exact ⟨h2.1.trans h1.1, h2.2.1.trans h1.2.1, h2.2.2.1.trans h1.2.2.1,
      h2.2.2.2.1.trans h1.2.2.2.1, h2.2.2.2.2.trans h1.2.2.2.2⟩

theorem processCategory_fields (fc fd : String → List String) (s : DiscoveryState)
    (c : String) :
    (processCategory fc fd s c).discovered = s.discovered
    ∧ (processCategory fc fd s c).toFetch = s.toFetch := by
  simp only [processCategory]
  split_ifs
  · exact ⟨rfl, rfl⟩
  · exact ⟨rfl, rfl⟩
  · exact ⟨rfl, rfl⟩
  · exact ⟨(harvestProducts_fields fd _ _).1, (harvestProducts_fields fd _ _).2.1⟩

theorem batchFold_fields (fc fd : String → List String) (batch : List String) :
    ∀ st : DiscoveryState,
      ((batch.foldl (processCategory fc fd) st).discovered = st.discovered
       ∧ (batch.foldl (processCategory fc fd) st).toFetch = st.toFetch) := by
  induction batch with
  | nil => intro st; exact ⟨rfl, rfl⟩
  | cons c batch ih =>
    intro st
    have h1 := processCategory_fields fc fd st c
    have h2 := ih (processCategory fc fd st c)
    rw [List.foldl_cons]
    exact ⟨h2.1.trans h1.1, h2.2.trans h1.2⟩

theorem addNewCategory_of_mem (st : DiscoveryState) (k : String)
    (hk : k ∈ st.discovered) : addNewCategory st k = st := by
  unfold addNewCategory
  split_ifs with h1 h2
  · exact absurd hk h2.2
  · rfl
  · rfl

theorem foldlAdd_of_mem (ks : List String) :
    ∀ st : DiscoveryState, (∀ k ∈ ks, k ∈ st.discovered) →
      ks.foldl addNewCategory st = st := by
  induction ks with
  | nil => intro st _; rfl
  | cons k ks ih =>
    intro st h
    rw [List.foldl_cons, addNewCategory_of_mem st k (h k (List.mem_cons_self k ks))]
    exact ih st (fun x hx => h x (List.mem_cons_of_mem k hx))

theorem harvestProducts_of_mem (fd : String → List String) (ps : List String) :
    ∀ st : DiscoveryState, (∀ sku ∈ ps, ∀ k ∈ fd sku, k ∈ st.discovered) →
      harvestProducts fd st ps = st := by
  induction ps with
  | nil => intro st _; rfl
  | cons sku ps ih =>
    intro st h
    unfold harvestProducts
    rw [List.foldl_cons, foldlAdd_of_mem (fd sku) st (h sku (List.mem_cons_self sku ps))]
    exact ih st (fun x hx k hk => h x (List.mem_cons_of_mem sku hx) k hk)

theorem processCategory_newCats_of_mem (fc fd : String → List String)
    (s : DiscoveryState) (c : String)
    (h : ∀ sku ∈ fc c, ∀ k ∈ fd sku, k ∈ s.discovered) :
    (processCategory fc fd s c).newCats = s.newCats := by
  simp only [processCategory]
  split_ifs
  · rfl
  · rfl
  · rfl
  · rw [harvestProducts_of_mem fd _ _ ?_]
    · intro sku hsku k hk
      exact h sku (List.mem_filter.mp hsku).1 k hk

theorem batchFold_of_mem (fc fd : String → List String) (batch : List String) :
    ∀ st : DiscoveryState,
      (∀ c ∈ batch, ∀ sku ∈ fc c, ∀ k ∈ fd sku, k ∈ st.discovered) →
      ((batch.foldl (processCategory fc fd) st).newCats = st.newCats
       ∧ (batch.foldl (processCategory fc fd) st).discovered = st.discovered
       ∧ (batch.foldl (processCategory fc fd) st).toFetch = st.toFetch) := by
  induction batch with
  | nil => intro st _; exact ⟨rfl, rfl, rfl⟩
  | cons c batch ih =>
    intro st h
    have hdisc := (processCategory_fields fc fd st c).1
    have htf := (processCategory_fields fc fd st c).2
    have hnc := processCategory_newCats_of_mem fc fd st c
      (h c (List.mem_cons_self c batch))
    have ih' := ih (processCategory fc fd st c) (fun c2 hc2 sku hsku k hk => by
      rw [hdisc]
      exact h c2 (List.mem_cons_of_mem c hc2) sku hsku k hk)
    rw [List.foldl_cons]
    exact ⟨ih'.1.trans hnc, ih'.2.1.trans hdisc, ih'.2.2.trans htf⟩

theorem stepIteration_fixed (fc fd : String → List String) (s : DiscoveryState)
    (h : ∀ c ∈ s.toFetch, ∀ sku ∈ fc c, ∀ k ∈ fd sku, k ∈ s.discovered) :
    (stepIteration fc fd s).toFetch = [] := by
  have hb := batchFold_of_mem fc fd s.toFetch { s with toFetch := [], newCats := [] }
    (fun c hc sku hsku k hk => h c hc sku hsku k hk)
  simp only [stepIteration]
  rw [if_pos (by simp [hb.1])]
  exact hb.2.2

theorem loopGo_of_empty (fc fd : String → List String) (t : DiscoveryState)
    (iter fuel : Nat) (h : t.toFetch = []) :
    loopGo fc fd t iter fuel = (t, iter) := by
  cases fuel <;> simp [loopGo, h]

theorem loopGo_full (fc fd : String → List String) :
    ∀ (fuel : Nat) (s : DiscoveryState) (iter : Nat),
      (∀ k < fuel, ((stepIteration fc fd)^[k] s).toFetch ≠ []) →
      loopGo fc fd s iter fuel = ((stepIteration fc fd)^[fuel] s, iter + fuel) := by
  intro fuel
  induction fuel with
  | zero => intro s iter _; simp [loopGo]
  | succ m ih =>
    intro s iter h
    have h0 : s.toFetch ≠ [] := by simpa using h 0 (by omega)
    rw [loopGo, if_neg (by simpa using h0)]
    have ih' := ih (stepIteration fc fd s) (iter + 1) (fun k hk => by
      rw [← Function.iterate_succ_apply]
      exact h (k + 1) (by omega))
    rw [ih', Function.iterate_succ_apply]
    exact congrArg _ (by omega)

/-! ### Claim theorems for the discovery loop -/

/-- Claim C1: the discovery loop stops right after any iteration that
harvests no category key outside the current discovered set, and it runs
for the full 10-iteration ceiling — stopping exactly then, not earlier —
whenever every iteration leaves a non-empty frontier. -/
theorem claim_C1 (fc fd : String → List String) (s : DiscoveryState)
    (iter fuel : Nat) :
    (s.toFetch ≠ [] →
      (∀ c ∈ s.toFetch, ∀ sku ∈ fc c, ∀ k ∈ fd sku, k ∈ s.discovered) →
      loopGo fc fd s iter (fuel + 1) = (stepIteration fc fd s, iter + 1))
    ∧ ((∀ k < 10, ((stepIteration fc fd)^[k] s).toFetch ≠ []) →
      loopGo fc fd s 0 10 = ((stepIteration fc fd)^[10] s, 10)) := by
  constructor
  · intro hne h
    rw [loopGo, if_neg (by simpa using hne)]
    exact loopGo_of_empty fc fd _ (iter + 1) fuel (stepIteration_fixed fc fd s h)
  · intro h
    exact loopGo_full fc fd 10 s 0 h

/-- Witness for claim C1: with a synthetic detail fetch always returning
the same 3 keys already discovered, the loop performs exactly 1
iteration; with a detail fetch minting one brand-new key per product, it
performs exactly 10. -/
theorem claim_C1_witness :
    loopGo fcFixW fdFixW sFixW 0 10 = (stepIteration fcFixW fdFixW sFixW, 1)
    ∧ (stepIteration fcFixW fdFixW sFixW).toFetch = []
    ∧ loopGo fcGrowW fdGrowW sGrowW 0 10
        = ((stepIteration fcGrowW fdGrowW)^[10] sGrowW, 10) := by
  refine ⟨?_, by decide, ?_⟩
  · exact (claim_C1 fcFixW fdFixW sFixW 0 9).1 (by decide) (by decide)
  · exact (claim_C1 fcGrowW fdGrowW sGrowW 0 0).2 (by decide)

end Aldi

namespace Aldi

/-! ### Emptiness filtering (claim C8) -/

theorem extract_keys_nonblank (detailedInfo : List (List String)) :
    ∀ k ∈ extract_category_keys_from_details detailedInfo,
      k ≠ "" ∧ pyStrip k ≠ "" := by
  intro k hk
  have h := (List.mem_filter.mp hk).2
  simp only [Bool.and_eq_true, Bool.not_eq_true', beq_eq_false_iff_ne, ne_eq] at h
  exact h

theorem addNewCategory_nonblank (st : DiscoveryState) (k : String)
    (h : ∀ x ∈ st.newCats, pyStrip x ≠ "") :
    ∀ x ∈ (addNewCategory st k).newCats, pyStrip x ≠ "" := by
  unfold addNewCategory
  split_ifs with h1 h2
  · intro x hx
    rcases List.mem_insert_iff.mp hx with rfl | hx
    · exact h1.2
    · exact h x hx
  · exact h
  · exact h

theorem foldlAdd_nonblank (ks : List String) :
    ∀ st : DiscoveryState, (∀ x ∈ st.newCats, pyStrip x ≠ "") →
      ∀ x ∈ (ks.foldl addNewCategory st).newCats, pyStrip x ≠ "" := by
  induction ks with
  | nil => intro st h; exact h
  | cons k ks ih =>
    intro st h
    rw [List.foldl_cons]
    exact ih (addNewCategory st k) (addNewCategory_nonblank st k h)

theorem harvestProducts_nonblank (fd : String → List String) (ps : List String) :
    ∀ st : DiscoveryState, (∀ x ∈ st.newCats, pyStrip x ≠ "") →
      ∀ x ∈ (harvestProducts fd st ps).newCats, pyStrip x ≠ "" := by
  induction ps with
  | nil => intro st h; exact h
  | cons sku ps ih =>
    intro st h
    unfold harvestProducts
    rw [List.foldl_cons]
    exact ih ((fd sku).foldl addNewCategory st) (foldlAdd_nonblank (fd sku) st h)

theorem processCategory_nonblank (fc fd : String → List String) (s : DiscoveryState)
    (c : String) (h : ∀ x ∈ s.newCats, pyStrip x ≠ "") :
    ∀ x ∈ (processCategory fc fd s c).newCats, pyStrip x ≠ "" := by
  simp only [processCategory]
  split_ifs
  · exact h
  · exact h
  · exact h
  · exact harvestProducts_nonblank fd _ _ h

theorem batchFold_nonblank (fc fd : String → List String) (batch : List String) :
    ∀ st : DiscoveryState, (∀ x ∈ st.newCats, pyStrip x ≠ "") →
      ∀ x ∈ ((batch.foldl (processCategory fc fd) st).newCats), pyStrip x ≠ "" := by
  induction batch with
  | nil => intro st h; exact h
  | cons c batch ih =>
    intro st h
    rw [List.foldl_cons]
    exact ih (processCategory fc fd st c) (processCategory_nonblank fc fd st c h)

theorem stepIteration_nonblank (fc fd : String → List String) (s : DiscoveryState)
    (hd : ∀ k ∈ s.discovered, pyStrip k ≠ "") :
    (∀ k ∈ (stepIteration fc fd s).discovered, pyStrip k ≠ "")
    ∧ (∀ k ∈ (stepIteration fc fd s).toFetch, pyStrip k ≠ "") := by
  have hfields := batchFold_fields fc fd s.toFetch { s with toFetch := [], newCats := [] }
  have hnc : ∀ x ∈ ((s.toFetch.foldl (processCategory fc fd)
      { s with toFetch := [], newCats := [] }).newCats), pyStrip x ≠ "" :=
    batchFold_nonblank fc fd s.toFetch _ (by intro x hx; simp at hx)
  simp only [stepIteration]
  split_ifs with hemp
  · constructor
    · intro k hk
      rw [hfields.1] at hk
      exact hd k hk
    · intro k hk
      rw [hfields.2] at hk
      simp at hk
  · constructor
    · intro k hk
      rcases List.mem_append.mp hk with hk | hk
      · rw [hfields.1] at hk
        exact hd k hk
      · exact hnc k hk
    · exact hnc

theorem loopGo_nonblank (fc fd : String → List String) :
    ∀ (fuel : Nat) (s : DiscoveryState) (iter : Nat),
      (∀ k ∈ s.discovered, pyStrip k ≠ "") →
      (∀ k ∈ s.toFetch, pyStrip k ≠ "") →
      (∀ k ∈ ((loopGo fc fd s iter fuel).1).discovered, pyStrip k ≠ "")
      ∧ (∀ k ∈ ((loopGo fc fd s iter fuel).1).toFetch, pyStrip k ≠ "") := by
  intro fuel
  induction fuel with
  | zero => intro s iter hd ht; exact ⟨hd, ht⟩
  | succ m ih =>
    intro s iter hd ht
    rw [loopGo]
    cases hemp : s.toFetch.isEmpty with
    | true => simp only [if_true]; exact ⟨hd, ht⟩
    | false =>
      simp only [Bool.false_eq_true, if_false]
      have hstep := stepIteration_nonblank fc fd s hd
      exact ih (stepIteration fc fd s) (iter + 1) hstep.1 hstep.2

/-- Claim C8: an empty or whitespace-only category key is never added to
the discovered set or the to-fetch queue — the non-blank filter holds at
the initial extraction and is preserved at every insertion point of the
discovery loop. -/
theorem claim_C8 (fc fd : String → List String) (s : DiscoveryState)
    (iter fuel : Nat)
    (hd : ∀ k ∈ s.discovered, pyStrip k ≠ "")
    (ht : ∀ k ∈ s.toFetch, pyStrip k ≠ "") :
    (∀ detailedInfo, ∀ k ∈ extract_category_keys_from_details detailedInfo,
        k ≠ "" ∧ pyStrip k ≠ "")
    ∧ (∀ k ∈ ((loopGo fc fd s iter fuel).1).discovered, pyStrip k ≠ "")
    ∧ (∀ k ∈ ((loopGo fc fd s iter fuel).1).toFetch, pyStrip k ≠ "") := by
  exact ⟨fun detailedInfo => extract_keys_nonblank detailedInfo,
    (loopGo_nonblank fc fd fuel s iter hd ht).1,
    (loopGo_nonblank fc fd fuel s iter hd ht).2⟩

/-- Witness for claim C8: the fixed-point example run, with the empty and
whitespace-only keys filtered out of a concrete extraction. -/
theorem claim_C8_witness :
    (∀ k ∈ extract_category_keys_from_details [["a", "", "   "], ["b"]],
        k ≠ "" ∧ pyStrip k ≠ "")
    ∧ (∀ k ∈ ((loopGo fcFixW fdFixW sFixW 0 10).1).discovered, pyStrip k ≠ "")
    ∧ (∀ k ∈ ((loopGo fcFixW fdFixW sFixW 0 10).1).toFetch, pyStrip k ≠ "") := by
  have h := claim_C8 fcFixW fdFixW sFixW 0 10 (by decide) (by decide)
  exact ⟨fun k hk => h.1 _ k hk, h.2.1, h.2.2⟩

end Aldi

namespace Aldi

/-! ### Seen-id filtering (claim C9) -/

theorem foldlAdd_keptInv (seen0 : List String) (ks : List String)
    (st : DiscoveryState) (h : keptInv seen0 st) :
    keptInv seen0 (ks.foldl addNewCategory st) := by
  have hf := foldlAdd_fields ks st
  unfold keptInv at h ⊢
  rw [hf.2.2.2.1, hf.2.2.2.2]
  exact h

theorem harvestProducts_keptInv (fd : String → List String) (seen0 : List String)
    (ps : List String) (st : DiscoveryState) (h : keptInv seen0 st) :
    keptInv seen0 (harvestProducts fd st ps) := by
  have hf := harvestProducts_fields fd ps st
  unfold keptInv at h ⊢
  rw [hf.2.2.2.1, hf.2.2.2.2]
  exact h

theorem processCategory_keptInv (fc fd : String → List String) (seen0 : List String)
    (s : DiscoveryState) (c : String) (h : keptInv seen0 s) :
    keptInv seen0 (processCategory fc fd s c) := by
  simp only [processCategory]
  split_ifs with h1 h2 h3
  · exact h
  · exact h
  · exact h
  · apply harvestProducts_keptInv
    obtain ⟨hsub, hseen, hnot0, hpw⟩ := h
    refine ⟨?_, ?_, ?_, ?_⟩
    · intro x hx
      exact List.mem_append_left _ (hsub x hx)
    · intro kept hkept sku hsku
      rcases List.mem_append.mp hkept with hk | hk
      · exact List.mem_append_left _ (hseen kept hk sku hsku)
      · rw [List.mem_singleton.mp hk] at hsku
        exact List.mem_append_right _ hsku
    · intro kept hkept sku hsku
      rcases List.mem_append.mp hkept with hk | hk
      · exact hnot0 kept hk sku hsku
      · rw [List.mem_singleton.mp hk] at hsku
        have hns := (List.mem_filter.mp hsku).2
        simp only [decide_eq_true_eq] at hns
        intro hs0
        exact hns (hsub sku hs0)
    · apply List.pairwise_append.mpr
      refine ⟨hpw, by simp, ?_⟩
      intro k1 hk1 k2 hk2 sku hsku
      rw [List.mem_singleton.mp hk2]
      intro hmem
      have hns := (List.mem_filter.mp hmem).2
      simp only [decide_eq_true_eq] at hns
      exact hns (hseen k1 hk1 sku hsku)

theorem batchFold_keptInv (fc fd : String → List String) (seen0 : List String)
    (batch : List String) :
    ∀ st : DiscoveryState, keptInv seen0 st →
      keptInv seen0 (batch.foldl (processCategory fc fd) st) := by
  induction batch with
  | nil => intro st h; exact h
  | cons c batch ih =>
    intro st h
    rw [List.foldl_cons]
    exact ih (processCategory fc fd st c) (processCategory_keptInv fc fd seen0 st c h)

theorem stepIteration_keptInv (fc fd : String → List String) (seen0 : List String)
    (s : DiscoveryState) (h : keptInv seen0 s) :
    keptInv seen0 (stepIteration fc fd s) := by
  have hs1 : keptInv seen0
      (s.toFetch.foldl (processCategory fc fd) { s with toFetch := [], newCats := [] }) :=
    batchFold_keptInv fc fd seen0 s.toFetch _ h
  simp only [stepIteration]
  split_ifs
  · exact hs1
  · exact hs1

theorem loopGo_keptInv (fc fd : String → List String) (seen0 : List String) :
    ∀ (fuel : Nat) (s : DiscoveryState) (iter : Nat), keptInv seen0 s →
      keptInv seen0 (loopGo fc fd s iter fuel).1 := by
  intro fuel
  induction fuel with
  | zero => intro s iter h; exact h
  | succ m ih =>
    intro s iter h
    rw [loopGo]
    cases hemp : s.toFetch.isEmpty with
    | true => simp only [if_true]; exact h
    | false =>
      simp only [Bool.false_eq_true, if_false]
      exact ih (stepIteration fc fd s) (iter + 1) (stepIteration_keptInv fc fd seen0 s h)

/-- Claim C9: on a run started with an empty batch record, no kept
category batch ever contains a product id that was in the caller-supplied
seen-id set; each kept id is in the final seen set, and no id kept for
one category is kept again for a later one. -/
theorem claim_C9 (fc fd : String → List String) (s : DiscoveryState)
    (iter fuel : Nat) (htrace : s.trace = []) :
    (∀ kept ∈ ((loopGo fc fd s iter fuel).1).trace, ∀ sku ∈ kept, sku ∉ s.seen)
    ∧ (∀ kept ∈ ((loopGo fc fd s iter fuel).1).trace, ∀ sku ∈ kept,
        sku ∈ ((loopGo fc fd s iter fuel).1).seen)
    ∧ List.Pairwise (fun kept1 kept2 => ∀ sku ∈ kept1, sku ∉ kept2)
        ((loopGo fc fd s iter fuel).1).trace := by
  have hinv : keptInv s.seen s := by
    unfold keptInv
    rw [htrace]
    exact ⟨fun x hx => hx, by simp, by simp, List.Pairwise.nil⟩
  obtain ⟨h1, h2, h3, h4⟩ := loopGo_keptInv fc fd s.seen fuel s iter hinv
  exact ⟨h3, h2, h4⟩

/-- Witness for claim C9: a concrete run in which the category fetch
returns one already-seen product and one new one; only the new id is
kept. -/
theorem claim_C9_witness :
    (∀ kept ∈ ((loopGo fcSeenW fdSeenW sSeenW 0 10).1).trace, ∀ sku ∈ kept,
        sku ∉ sSeenW.seen)
    ∧ (∀ kept ∈ ((loopGo fcSeenW fdSeenW sSeenW 0 10).1).trace, ∀ sku ∈ kept,
        sku ∈ ((loopGo fcSeenW fdSeenW sSeenW 0 10).1).seen)
    ∧ List.Pairwise (fun kept1 kept2 => ∀ sku ∈ kept1, sku ∉ kept2)
        ((loopGo fcSeenW fdSeenW sSeenW 0 10).1).trace :=
  claim_C9 fcSeenW fdSeenW sSeenW 0 10 rfl

end Aldi

namespace Walmart

/-! ### Claim theorems for the Walmart HTML price extraction -/

theorem regexSweep_eq (rs : List MatchRes) :
    ∀ p, regexSweep rs p =
      (match firstRegexHit rs with
       | some v => some v
       | none => p) := by
  induction rs with
  | nil => intro p; rfl
  | cons r rest ih =>
    intro p
    cases r with
    | noMatch => simpa [regexSweep, firstRegexHit] using ih p
    | matchedOk v => simp [regexSweep, firstRegexHit]
    | matchedBad => simpa [regexSweep, firstRegexHit] using ih p

theorem jsonLdSweep_eq (rs : List MatchRes) :
    ∀ p, jsonLdSweep rs p =
      (match lastLdHit rs with
       | some v => some v
       | none => p) := by
  induction rs with
  | nil => intro p; rfl
  | cons r rest ih =>
    intro p
    cases r with
    | noMatch => simpa [jsonLdSweep, lastLdHit] using ih p
    | matchedBad => simpa [jsonLdSweep, lastLdHit] using ih p
    | matchedOk v =>
      rw [show jsonLdSweep (MatchRes.matchedOk v :: rest) p
        = jsonLdSweep rest (some v) from rfl, ih (some v)]
      simp only [lastLdHit]
      cases lastLdHit rest <;> rfl

/-- Claim C5, counterexample: the structured-data blob supplies price 5
while the first price regex pattern matches 9; the regex sweep runs
unconditionally and overwrites, so the parsed price is 9, not the
structured-data value. -/
theorem claim_C5_counterexample :
    parse_product_page_price
      { nextDataPrice := some 5
        priceRegex := [.matchedOk 9, .noMatch, .noMatch, .noMatch]
        jsonLdOffers := [] } = some 9
    ∧ (9 : ℚ) ≠ 5 := by
  exact ⟨rfl, by norm_num⟩

/-- Claim C5, amended: the structured-data price does not take precedence
over the regex sweep.  The final price is the last JSON-LD offers
assignment if any, else the first successfully parsed regex match if
any, and only otherwise the structured-data value; in particular, when
no regex pattern and no JSON-LD block supplies a price, the
structured-data value survives, and whenever a regex pattern matches and
parses (and no JSON-LD block assigns), the regex value overwrites the
structured-data one. -/
theorem claim_C5 (view : PriceView) :
    parse_product_page_price view =
      (match lastLdHit view.jsonLdOffers with
       | some v => some v
       | none =>
         match firstRegexHit view.priceRegex with
         | some v => some v
         | none => view.nextDataPrice)
    ∧ (firstRegexHit view.priceRegex = none →
        lastLdHit view.jsonLdOffers = none →
        parse_product_page_price view = view.nextDataPrice)
    ∧ (∀ v, firstRegexHit view.priceRegex = some v →
        lastLdHit view.jsonLdOffers = none →
        parse_product_page_price view = some v) := by
  have hmain : parse_product_page_price view =
      (match lastLdHit view.jsonLdOffers with
       | some v => some v
       | none =>
         match firstRegexHit view.priceRegex with
         | some v => some v
         | none => view.nextDataPrice) := by
    rw [parse_product_page_price, regexSweep_eq, jsonLdSweep_eq]
  refine ⟨hmain, ?_, ?_⟩
  · intro h1 h2
    rw [hmain, h1, h2]
  · intro v h1 h2
    rw [hmain, h1, h2]

/-- Witness for claim C5: with no JSON-LD assignment, the third regex
pattern being the first to parse, the final price is its value 7. -/
theorem claim_C5_witness :
    parse_product_page_price
      { nextDataPrice := some 5
        priceRegex := [.noMatch, .matchedBad, .matchedOk 7, .noMatch]
        jsonLdOffers := [.noMatch] } = some 7 :=
  (claim_C5 _).2.2 7 rfl rfl

end Walmart
